import Mathlib

/-!
Verification of the symbolic binding/tracing engine and component code
generator of the `@lcui/react` package (a compiler from React-style
component traces to LCUI C source).

The definitions below are a shallow embedding of the TypeScript sources:
`binding.ts` (symbolic bindings, the context stack and the C emitter),
`fmt.ts` (runtime string formatting), `useState.ts` (state promotion and
state setters), `useRef.ts` (widget instances, text-input access) and
`compile.ts` (the declarative-tree walker).  Mutable JS state is threaded
explicitly; JS exceptions become `Except String`; JS object identity is
modelled by an `id` field on bindings and handlers.
-/

namespace LCUI

/-- The `CType` enum from `binding.ts`. -/
inductive CType where
  | Unknown
  | Int
  | Boolean
  | Size
  | Double
  | String
  | Object
deriving DecidableEq, Repr

mutual
/-- JS values flowing through the tracer (`Value` in `binding.ts`).
`vother` stands for a plain JS object that is neither `null` nor a
binding; `vundefined` is `undefined`. -/
inductive Value where
  | vstr : String → Value
  | vnum : Int → Value
  | vbool : Bool → Value
  | vnull : Value
  | vundefined : Value
  | vother : Value
  | vbinding : ObjBinding → Value

/-- An object binding's metadata (`ObjectBindingMeta`): allocation identity
(JS reference identity), C identifier, C type, `keepAlive` ownership flag
and optional initializer expression. -/
inductive ObjBinding where
  | mk : Nat → String → CType → Bool → Option InitExpr → ObjBinding

/-- Initializer expressions (`InitializerExpression` in `binding.ts`). -/
inductive InitExpr where
  | strLit : String → InitExpr
  | numLit : String → CType → InitExpr
  | newExpr : String → List Value → InitExpr
  | binding : ObjBinding → InitExpr
end

def ObjBinding.id : ObjBinding → Nat
  | .mk i _ _ _ _ => i

def ObjBinding.name : ObjBinding → String
  | .mk _ n _ _ _ => n

def ObjBinding.ctype : ObjBinding → CType
  | .mk _ _ t _ _ => t

def ObjBinding.keepAlive : ObjBinding → Bool
  | .mk _ _ _ k _ => k

def ObjBinding.initializer : ObjBinding → Option InitExpr
  | .mk _ _ _ _ i => i

/-- Rename a binding in place (`value.__meta__.name = ...`). -/
def ObjBinding.withName (b : ObjBinding) (n : String) : ObjBinding :=
  match b with
  | .mk i _ t k init => .mk i n t k init

/-- Set the `keepAlive` flag (`str.__meta__.keepAlive = true`). -/
def ObjBinding.withKeepAlive (b : ObjBinding) (k : Bool) : ObjBinding :=
  match b with
  | .mk i n t _ init => .mk i n t k init

/-- A character escape in the style of `JSON.stringify` for string
literals. -/
def jsonEscapeChar (c : Char) : String :=
  if c = '\"' then "\\\""
  else if c = '\\' then "\\\\"
  else if c = '\n' then "\\n"
  else if c = '\t' then "\\t"
  else if c = '\r' then "\\r"
  else String.singleton c

/-- `JSON.stringify` applied to a JS string: the quoted, escaped text. -/
def jsonStringify (s : String) : String :=
  "\"" ++ String.join (s.data.map jsonEscapeChar) ++ "\""

/-- JS `String.prototype.endsWith` on the character-list model (the core
`String.endsWith` is defined through position loops that do not reduce
definitionally). -/
def strEndsWith (s suffix : String) : Bool :=
  suffix.data.isSuffixOf s.data

/-- JS `String.prototype.startsWith` on the character-list model. -/
def strStartsWith (s start : String) : Bool :=
  start.data.isPrefixOf s.data

/-- JS `key.substring(2).toLocaleLowerCase()` on the character-list
model: the event name derived from an `on*` prop key. -/
def eventNameOf (key : String) : String :=
  String.mk ((key.data.drop 2).map Char.toLower)

/-- The `typeNameMap` table from `binding.ts`: C type names for the
directly printable `CType`s. -/
def typeNameMap : CType → Option String
  | .Double => some "double"
  | .Size => some "size_t"
  | .Int => some "int"
  | .String => some "char*"
  | _ => none

/-- `getObjectTypeName` from `binding.ts`.  Throws `missing initializer`
when the type is not in `typeNameMap` and there is no initializer. -/
def getObjectTypeName (obj : ObjBinding) : Except String String :=
  match typeNameMap obj.ctype with
  | some typeName => .ok typeName
  | none =>
    match obj.initializer with
    | none => .error "missing initializer"
    | some (.binding b) => .ok b.name
    | some (.numLit _ t) =>
        -- the source indexes `typeNameMap[init.type]`; a non-printable
        -- numeric subtype would produce JS `undefined`
        .ok ((typeNameMap t).getD "undefined")
    | some (.strLit _) => .ok "char*"
    | some (.newExpr identifier _) => .ok identifier

/-- The JS `typeof` of a traced value, used in error messages. -/
def typeofValue : Value → String
  | .vstr _ => "string"
  | .vnum _ => "number"
  | .vbool _ => "boolean"
  | .vnull => "object"
  | .vundefined => "undefined"
  | .vother => "object"
  | .vbinding _ => "object"

/-- `getTypeName` from `binding.ts`. -/
def getTypeName (value : Value) : Except String String :=
  match value with
  | .vbinding b => getObjectTypeName b
  | v => .ok (typeofValue v)

/-- `toClassName`: for a name ending in `_t`, drop the final character
(`typeName.substring(0, typeName.length - 1)` keeps the underscore). -/
def toClassName (typeName : String) : String :=
  if strEndsWith typeName "_t" then String.mk typeName.data.dropLast
  else typeName

/-- `getInitializerName`: `<class>_create`. -/
def getInitializerName (typeName : String) : String :=
  toClassName typeName ++ "_create"

/-- `getDestroyerName`: `<class>_destroy`. -/
def getDestroyerName (typeName : String) : String :=
  toClassName typeName ++ "_destroy"

/-- `resolveBindingIdentify` from `binding.ts`. -/
def resolveBindingIdentify (b : ObjBinding) : String :=
  if b.name = "" then "unnamed_obj" else b.name

/-- Stringification of one call argument (the `switch` inside
`compileCallExpression`). -/
def compileCallArg : Value → String
  | .vstr s => jsonStringify s
  | .vnum n => toString n
  | .vbool b => if b then "true" else "false"
  | .vundefined => "NULL"
  | .vnull => "NULL"
  | .vbinding b => resolveBindingIdentify b
  | .vother => "unsupported_type_object"

/-- `compileCallExpression` from `binding.ts`. -/
def compileCallExpression (identifier : String) (args : List Value) : String :=
  identifier ++ "(" ++ String.intercalate ", " (args.map compileCallArg) ++ ")"

/-- `createStringLiteral`: `NULL` for a null value, otherwise the
JSON-quoted text. -/
def createStringLiteral (value : Option String) : InitExpr :=
  .strLit (match value with
    | none => "NULL"
    | some v => jsonStringify v)

/-- `createNumericLiteral`. -/
def createNumericLiteral (num : Int) (type : CType) : InitExpr :=
  .numLit (toString num) type

/-- `createStringBinding` from `binding.ts`: a `CType.String` binding with
a string-literal initializer.  The `id` argument models the fresh JS
object identity of the created binding. -/
def createStringBinding (id : Nat) (name : String) (value : Option String) :
    ObjBinding :=
  .mk id name CType.String false (some (createStringLiteral value))

/-- `createBooleanBinding`: no initializer. -/
def createBooleanBinding (id : Nat) (name : String) : ObjBinding :=
  .mk id name CType.Boolean false none

/-- `createNumericBinding` from `binding.ts` (the `factory` version, whose
binding type is the requested numeric subtype). -/
def createNumericBinding (id : Nat) (name : String) (value : Int)
    (type : CType) : ObjBinding :=
  .mk id name type false (some (createNumericLiteral value type))

/-- `VariableDeclaration`: a local's identifier and its owning binding. -/
structure VariableDeclaration where
  identifier : String
  initializer : ObjBinding

/-- `FunctionContext`: accumulator for one generated function.  `nextId`
is the embedding's counter for fresh binding identities (JS object
identity). -/
structure FunctionContext where
  kind : String
  name : String
  locals : List VariableDeclaration
  body : List String
  hasStateOperation : Bool
  nextId : Nat

/-- `createFunctionContext` from `binding.ts`. -/
def createFunctionContext (name : String) : FunctionContext :=
  { kind := "FunctionContext", name := name, locals := [], body := [],
    hasStateOperation := false, nextId := 0 }

/-- `createStringVariable`: allocate `str_<n>` as a fresh local of the
active context and return its binding. -/
def createStringVariable (value : Option String) (ctx : FunctionContext) :
    ObjBinding × FunctionContext :=
  let identifier := "str_" ++ toString ctx.locals.length
  let binding := createStringBinding ctx.nextId identifier value
  (binding,
   { ctx with
     locals := ctx.locals ++ [⟨identifier, binding⟩],
     nextId := ctx.nextId + 1 })

/-- `createNumericVariable` from `binding.ts` (`factory` version): the
identifier is the supplied name, or `num_<n>` when absent. -/
def createNumericVariable (name : Option String) (value : Int) (type : CType)
    (ctx : FunctionContext) : ObjBinding × FunctionContext :=
  let identifier := match name with
    | some n => n
    | none => "num_" ++ toString ctx.locals.length
  let binding := createNumericBinding ctx.nextId identifier value type
  (binding,
   { ctx with
     locals := ctx.locals ++ [⟨identifier, binding⟩],
     nextId := ctx.nextId + 1 })

/-- `createVariable`: allocate `obj_<n>`, a `CType.Object` local with a
construction-call (`NewExpression`) initializer. -/
def createVariable (typeName : String) (args : List Value)
    (ctx : FunctionContext) : ObjBinding × FunctionContext :=
  let identifier := "obj_" ++ toString ctx.locals.length
  let binding : ObjBinding :=
    .mk ctx.nextId identifier CType.Object false
      (some (.newExpr typeName args))
  (binding,
   { ctx with
     locals := ctx.locals ++ [⟨identifier, binding⟩],
     nextId := ctx.nextId + 1 })

/-- `compileObjectInitializer` from `binding.ts` (part of the `compiler`
object): `strdup2` for non-NULL string literals, the literal text for
numeric literals, `<Type>_create(args)` for constructions. -/
def compileObjectInitializer (obj : ObjBinding) : Except String String :=
  match obj.initializer with
  | none => .error "missing initializer"
  | some (.strLit text) =>
      if text = "NULL" then .ok "NULL" else .ok ("strdup2(" ++ text ++ ")")
  | some (.numLit text _) => .ok text
  | some (.newExpr identifier args) =>
      .ok (compileCallExpression (getInitializerName identifier) args)
  | some (.binding _) => .ok ""

/-- `compileVariableDeclaration`: `<type> <identifier> = <initializer>`. -/
def compileVariableDeclaration (decl : VariableDeclaration) :
    Except String String := do
  let typeName ← getObjectTypeName decl.initializer
  let init ← compileObjectInitializer decl.initializer
  .ok (typeName ++ " " ++ decl.identifier ++ " = " ++ init)

/-- `compileObjectDestroyer` from `binding.ts`: the empty string for a
`keepAlive` binding, `free(name)` for a string-literal initializer,
nothing for a numeric literal, `<Type>_destroy(name)` for a
construction. -/
def compileObjectDestroyer (obj : ObjBinding) : Except String String :=
  if obj.keepAlive then .ok ""
  else
    match obj.initializer with
    | none => .error "missing initializer"
    | some (.strLit _) => .ok ("free(" ++ obj.name ++ ")")
    | some (.numLit _ _) => .ok ""
    | some (.newExpr identifier _) =>
        .ok (getDestroyerName identifier ++ "(" ++ obj.name ++ ")")
    | some (.binding _) => .ok ""

/-- `formatFuncBody`: drop empty statements, indent each by eight spaces
and terminate it with `;`. -/
def formatFuncBody (body : List String) : String :=
  String.intercalate "\n"
    ((body.filter (fun line => line ≠ "")).map
      (fun line => "        " ++ line ++ ";"))

/-- `compileFunction` from `binding.ts`: signature, opening brace, local
declarations, body statements, local destroyers, closing brace; empty
sections are dropped. -/
def compileFunction (locals : List VariableDeclaration) (signature : String)
    (body : List String) : Except String String := do
  let decls ← locals.mapM compileVariableDeclaration
  let dests ← locals.mapM (fun d => compileObjectDestroyer d.initializer)
  .ok (String.intercalate "\n"
    (([signature, "\x7b", formatFuncBody decls, formatFuncBody body,
       formatFuncBody dests, "\x7d"]).filter (fun s => s ≠ "")))

/-- `pushFunctionComponent` from `binding.ts`: `contextList.push(ctx)`. -/
def pushFunctionComponent (ctx : FunctionContext)
    (contextList : List FunctionContext) : List FunctionContext :=
  contextList ++ [ctx]

/-- The `popFunctionComponent` of `binding.ts`, translated exactly as
written: its body is `contextList.push(ctx)`, not a pop. -/
def popFunctionComponent (ctx : FunctionContext)
    (contextList : List FunctionContext) : List FunctionContext :=
  contextList ++ [ctx]

/-- The internal `call(func, ctx)` helper of `binding.ts`: push `ctx`, run
the traced function (its effect on the stack is `f`), then pop. -/
def call (f : List FunctionContext → List FunctionContext)
    (ctx : FunctionContext) (contextList : List FunctionContext) :
    List FunctionContext :=
  (f (contextList ++ [ctx])).dropLast

/-- Append statements to the active context's body. -/
def pushBody (ctx : FunctionContext) (stmts : List String) : FunctionContext :=
  { ctx with body := ctx.body ++ stmts }

/-- `stringifyBinding` from `binding.ts`.  The `CType.Object` case is
translated exactly as written in the source: its `switch` case pushes the
`<Type>_to_string` statement and then, lacking a `return` or `break`,
falls through into the `CType.Double` case. -/
def stringifyBinding (obj : ObjBinding) (ctx : FunctionContext) :
    Except String (ObjBinding × FunctionContext) :=
  match obj.ctype with
  | CType.String => .ok (obj, ctx)
  | CType.Object => do
      let typeName ← getObjectTypeName obj
      let (str, ctx) := createStringVariable none ctx
      let ctx := pushBody ctx
        [str.name ++ " = " ++ toClassName typeName ++ "_to_string(" ++
          obj.name ++ ")"]
      -- fall through into the Double case
      let (str, ctx) := createStringVariable none ctx
      let ctx := pushBody ctx
        [str.name ++ " = malloc(sizeof(char) * 32)",
         "snprintf(" ++ str.name ++ ", 31, \"%lf\", " ++ obj.name ++ ")",
         str.name ++ "[31] = 0"]
      .ok (str, ctx)
  | CType.Double =>
      let (str, ctx) := createStringVariable none ctx
      let ctx := pushBody ctx
        [str.name ++ " = malloc(sizeof(char) * 32)",
         "snprintf(" ++ str.name ++ ", 31, \"%lf\", " ++ obj.name ++ ")",
         str.name ++ "[31] = 0"]
      .ok (str, ctx)
  | CType.Int =>
      let (str, ctx) := createStringVariable none ctx
      let ctx := pushBody ctx
        [str.name ++ " = malloc(sizeof(char) * 32)",
         "snprintf(" ++ str.name ++ ", 31, \"%d\", " ++ obj.name ++ ")",
         str.name ++ "[31] = 0"]
      .ok (str, ctx)
  | CType.Size =>
      let (str, ctx) := createStringVariable none ctx
      let ctx := pushBody ctx
        [str.name ++ " = malloc(sizeof(char) * 32)",
         "snprintf(" ++ str.name ++ ", 31, \"%zu\", " ++ obj.name ++ ")",
         str.name ++ "[31] = 0"]
      .ok (str, ctx)
  | _ => .error ("Unable to convert object " ++ obj.name ++ " to a string")

/-- `stringifyValue` from `binding.ts`. -/
def stringifyValue (value : Value) (ctx : FunctionContext) :
    Except String (ObjBinding × FunctionContext) :=
  match value with
  | .vstr s => .ok (createStringVariable (some s) ctx)
  | .vbool b => .ok (createStringVariable (some (if b then "true" else "false")) ctx)
  | .vnum n => .ok (createStringVariable (some (toString n)) ctx)
  | .vundefined => .ok (createStringVariable (some "undefined") ctx)
  | .vnull => .ok (createStringVariable none ctx)
  | .vbinding b => stringifyBinding b ctx
  | .vother => .error "Unable to convert object to a string"

/-- The effectful `args.map((value) => stringifyValue(value).__meta__.name)`
of `fmt`: stringify each argument in order, collecting the binding
names. -/
def stringifyValues (args : List Value) (ctx : FunctionContext) :
    Except String (List String × FunctionContext) :=
  match args with
  | [] => .ok ([], ctx)
  | v :: vs => do
      let (b, ctx) ← stringifyValue v ctx
      let (names, ctx) ← stringifyValues vs ctx
      .ok (b.name :: names, ctx)

/-- The length-increment statements of `fmt`, one per stringified
argument. -/
def fmtIncrStmts (lenName : String) (names : List String) : List String :=
  names.map (fun id => lenName ++ " += strlen(" ++ id ++ ")")

/-- The copy statements of `fmt`: `strcpy` for the first argument,
`strcat` for each later one. -/
def fmtCopyStmts (strName : String) (names : List String) : List String :=
  names.enum.map (fun p =>
    (if p.1 = 0 then "strcpy" else "strcat") ++
      "(" ++ strName ++ ", " ++ p.2 ++ ")")

/-- `fmt` from `fmt.ts`: allocate the result string `str_<n>` and its
length accumulator `str_<n>_len` (initialized to 8, `size_t`), stringify
the arguments in order, then emit the increments, the allocation and the
copy/concat statements. -/
def fmt (args : List Value) (ctx : FunctionContext) :
    Except String (ObjBinding × FunctionContext) := do
  let (str, ctx) := createStringVariable none ctx
  let (len, ctx) := createNumericVariable (some (str.name ++ "_len")) 8
    CType.Size ctx
  let (list, ctx) ← stringifyValues args ctx
  let ctx := pushBody ctx (fmtIncrStmts len.name list)
  let ctx := pushBody ctx
    [str.name ++ " = malloc(sizeof(char) * " ++ len.name ++ ")"]
  let ctx := pushBody ctx (fmtCopyStmts str.name list)
  .ok (str, ctx)

/-- `isNumericType` from `binding.ts`. -/
def isNumericType (t : CType) : Bool :=
  t = CType.Int || t = CType.Size || t = CType.Double

/-- `isNumeric` from `binding.ts`. -/
def isNumeric (obj : ObjBinding) : Bool :=
  isNumericType obj.ctype

/-- `isString` from `binding.ts`. -/
def isString (obj : ObjBinding) : Bool :=
  obj.ctype = CType.String

/-- The right-hand side conversion of `setObjectBindingValue`'s numeric
branch. -/
def numericRight (newValue : Value) : Except String String :=
  match newValue with
  | .vbool b => .ok (if b then "1" else "0")
  | .vnum n => .ok (toString n)
  | .vnull => .ok "0"
  | .vbinding b => .ok b.name
  | v => .error ("Unable to convert " ++ typeofValue v ++ " to int")

/-- `setObjectBindingValue` from `useState.ts`: mark the active context as
having a state operation; for a string binding, stringify the new value,
emit the old buffer's destroyer and the reassignment; for a numeric
binding, emit a plain assignment. -/
def setObjectBindingValue (obj : ObjBinding) (newValue : Value)
    (ctx : FunctionContext) : Except String FunctionContext := do
  let ctx := { ctx with hasStateOperation := true }
  if isString obj then do
    let (str, ctx) ← stringifyValue newValue ctx
    let dest ← compileObjectDestroyer obj
    .ok (pushBody ctx [dest, obj.name ++ " = " ++ str.name])
  else if isNumeric obj then do
    let right ← numericRight newValue
    .ok (pushBody ctx [obj.name ++ " = " ++ right])
  else
    .error "Cannot assign value: incompatible types"

/-- `WidgetInstance.getTextInputValue` from `useRef.ts`: allocate a string
local and a zero-initialized `size_t` length local, emit the
wide-character read/convert sequence, then mark the string binding
`keepAlive`.  In the source the binding object is shared between the
returned value and the pushed local declaration, so the `keepAlive`
mutation is applied to both. -/
def getTextInputValue (ident : String) (ctx : FunctionContext) :
    ObjBinding × FunctionContext :=
  let (str, ctx) := createStringVariable none ctx
  let (len, ctx) := createNumericVariable (some (str.name ++ "_len")) 0
    CType.Size ctx
  let wcsIdent := str.name ++ "_wcs"
  let wcsLenIdent := wcsIdent ++ "_len"
  let ctx := pushBody ctx
    ["size_t " ++ wcsLenIdent ++ " = ui_textinput_get_text_length(" ++
       ident ++ ")",
     "wchar_t *" ++ wcsIdent ++ " = malloc(sizeof(wchar_t) * (" ++
       wcsLenIdent ++ " + 4))",
     "ui_textinput_get_text_w(" ++ ident ++ ", 0, " ++ wcsLenIdent ++
       " + 1, " ++ wcsIdent ++ ")",
     len.name ++ " = wcstombs(NULL, " ++ wcsIdent ++ ", 0) + 1",
     str.name ++ " = malloc(sizeof(char) * " ++ len.name ++ ")",
     "wcstombs(" ++ str.name ++ ", " ++ wcsIdent ++ ", " ++ len.name ++ ")"]
  let strKA := str.withKeepAlive true
  let ctx :=
    { ctx with
      locals := ctx.locals.map (fun d =>
        if d.initializer.id = str.id then { d with initializer := strKA }
        else d) }
  (strKA, ctx)

/-- A traced operation performed by a handler body during its single
compile-time execution: invoking a state setter (the closure returned by
`useState`), or invoking a binding as a function (the proxy `apply`
trap). -/
inductive HOp where
  | setState : ObjBinding → Value → HOp
  | invokeBinding : ObjBinding → List Value → HOp

/-- A JS handler function: its object identity and the operations its
body performs when executed once by the tracer. -/
structure Handler where
  id : Nat
  prog : List HOp

/-- The `handler` field of an `EventHandlerDeclaration`: a traced function
or a pre-existing native function name (`string | Function`). -/
inductive HandlerRef where
  | fn : Handler → HandlerRef
  | named : String → HandlerRef

/-- JS `item.handler == handler` for a function: reference identity. -/
def HandlerRef.matches : HandlerRef → Handler → Bool
  | .fn h0, h => h0.id = h.id
  | .named _, _ => false

/-- `EventHandlerDeclaration` (the `compile.ts` shape, with a target
reference). -/
structure EventHandlerDecl where
  eventName : String
  target : String
  handler : HandlerRef
  context : FunctionContext

/-- `ComponentContext`: the root context's `FunctionContext` part plus the
component-level lists. -/
structure ComponentContext where
  fc : FunctionContext
  state : List VariableDeclaration
  stateNames : List String
  refNames : List String
  eventHandlers : List EventHandlerDecl
  refs : List String
  headerFiles : List String

/-- The tracer's global state: `contextList` is `comp.fc` (index 0,
always the component context) followed by `fstack`; `instTypes` maps
`WidgetInstance` identities to their recorded widget types. -/
structure CState where
  comp : ComponentContext
  fstack : List FunctionContext
  instTypes : List (Nat × String)

/-- `getComponentContext` succeeds iff `contextList[0]` is a
`ComponentContext`. -/
def componentContextOk (st : CState) : Bool :=
  st.comp.fc.kind = "ComponentContext"

/-- Run one handler operation against a function context (the active
context at trace time). -/
def runOp (op : HOp) (ctx : FunctionContext) : Except String FunctionContext :=
  match op with
  | .setState target v => setObjectBindingValue target v ctx
  | .invokeBinding target args =>
      .ok (pushBody ctx
        [compileCallExpression (resolveBindingIdentify target) args])

/-- Execute a handler body: run its operations in order against the
active context. -/
def runOps (prog : List HOp) (ctx : FunctionContext) :
    Except String FunctionContext :=
  match prog with
  | [] => .ok ctx
  | op :: rest => do
      let ctx ← runOp op ctx
      runOps rest ctx

/-- Apply a context transformation to the active (top-of-stack) context:
the last pushed function context, or the component context when the stack
holds only the component. -/
def modifyActive (f : FunctionContext → Except String FunctionContext)
    (st : CState) : Except String CState :=
  match st.fstack.getLast? with
  | none => do
      let fc ← f st.comp.fc
      .ok { st with comp := { st.comp with fc := fc } }
  | some c => do
      let c2 ← f c
      .ok { st with fstack := st.fstack.dropLast ++ [c2] }

/-- As `modifyActive`, for operations that also return a value. -/
def modifyActiveV (f : FunctionContext → Except String (ObjBinding × FunctionContext))
    (st : CState) : Except String (ObjBinding × CState) :=
  match st.fstack.getLast? with
  | none => do
      let (b, fc) ← f st.comp.fc
      .ok (b, { st with comp := { st.comp with fc := fc } })
  | some c => do
      let (b, c2) ← f c
      .ok (b, { st with fstack := st.fstack.dropLast ++ [c2] })

/-- The `call(func, ctx)` helper as it acts on the tracer state:
`contextList.push(ctx)`, run the handler body (which mutates the active
context), `contextList.pop()`.  The popped, mutated handler context is
returned (in JS it stays reachable through the event-handler
declaration). -/
def callTrace (h : Handler) (ctx : FunctionContext) (st : CState) :
    Except String (FunctionContext × CState) := do
  let st1 := { st with fstack := st.fstack ++ [ctx] }
  let st2 ← modifyActive (runOps h.prog) st1
  match st2.fstack.getLast? with
  | some traced => .ok (traced, { st2 with fstack := st2.fstack.dropLast })
  | none => .error "FunctionContext is missing"

/-- Append statements to the component context's body
(`getComponentContext().body.push(...)`). -/
def pushCompBody (st : CState) (stmts : List String) : CState :=
  { st with comp := { st.comp with fc := pushBody st.comp.fc stmts } }

/-- A `style` entry's value: a binding, a number, a string, or some other
JS value (whose `typeof` text is kept for the `unknown_<typeof>`
identifier). -/
inductive StyleVal where
  | sbind : ObjBinding → StyleVal
  | snum : Int → StyleVal
  | sstr : String → StyleVal
  | sother : String → StyleVal

mutual
/-- A React child node as seen by the walker. -/
inductive ReactNode where
  | rstr : String → ReactNode
  | rnum : Int → ReactNode
  | rbool : Bool → ReactNode
  | rnull : ReactNode
  | rbinding : ObjBinding → ReactNode
  | rother : ReactNode
  | relem : RElement → ReactNode

/-- A React element: its type and its props, in insertion order. -/
inductive RElement where
  | mk : RType → List (String × PropVal) → RElement

/-- An element's `type`: an intrinsic tag string, `React.Fragment`, the
`JSXObjectBinding` wrapper component, or a user component function. -/
inductive RType where
  | rtag : String → RType
  | rfragment : RType
  | rjsxBinding : RType
  | rcomp : RComponent → RType

/-- A component function: its `name`, optional `displayName`, its
`shouldPreRender` flag, and — since the tracer invokes it exactly once
with the props it carries — the element that single invocation returns. -/
inductive RComponent where
  | mk : String → Option String → Bool → RElement → RComponent

/-- A prop value. -/
inductive PropVal where
  | pstr : String → PropVal
  | pnum : Int → PropVal
  | pbool : Bool → PropVal
  | phandler : Handler → PropVal
  | prefobj : String → Nat → PropVal
  | pchildren : List ReactNode → PropVal
  | pstyle : List (String × StyleVal) → PropVal
  | pbinding : ObjBinding → PropVal
  | pundefined : PropVal
end

def RElement.rtype : RElement → RType
  | .mk t _ => t

def RElement.props : RElement → List (String × PropVal)
  | .mk _ p => p

def RComponent.cname : RComponent → String
  | .mk n _ _ _ => n

def RComponent.displayName : RComponent → Option String
  | .mk _ d _ _ => d

def RComponent.shouldPreRender : RComponent → Bool
  | .mk _ _ s _ => s

def RComponent.rendered : RComponent → RElement
  | .mk _ _ _ r => r

/-- JS truthiness of a prop value. -/
def truthy : PropVal → Bool
  | .pstr s => s ≠ ""
  | .pnum n => n ≠ 0
  | .pbool b => b
  | .phandler _ => true
  | .prefobj _ _ => true
  | .pchildren _ => true
  | .pstyle _ => true
  | .pbinding _ => true
  | .pundefined => false

/-- JS `typeof` of a prop value. -/
def typeofProp : PropVal → String
  | .pstr _ => "string"
  | .pnum _ => "number"
  | .pbool _ => "boolean"
  | .phandler _ => "function"
  | .pundefined => "undefined"
  | _ => "object"

/-- An output-tree node (`createNode` in `compile.ts`).  JS keeps any
`undefined` result of transforming a child in the `children` array, hence
`Option`. -/
inductive UINode where
  | mk : String → String → List (String × PropVal) → List (Option UINode) →
      UINode

def UINode.name : UINode → String
  | .mk n _ _ _ => n

def UINode.text : UINode → String
  | .mk _ t _ _ => t

def UINode.attributes : UINode → List (String × PropVal)
  | .mk _ _ a _ => a

def UINode.children : UINode → List (Option UINode)
  | .mk _ _ _ c => c

/-- `createNode(name)`. -/
def createNode (name : String) : UINode :=
  .mk name "" [] []

def UINode.withName (n : UINode) (s : String) : UINode :=
  match n with
  | .mk _ t a c => .mk s t a c

def UINode.withText (n : UINode) (s : String) : UINode :=
  match n with
  | .mk nm _ a c => .mk nm s a c

def UINode.withChildren (n : UINode) (cs : List (Option UINode)) : UINode :=
  match n with
  | .mk nm t a _ => .mk nm t a cs

/-- Look an attribute up by key. -/
def getAttr (attrs : List (String × PropVal)) (k : String) : Option PropVal :=
  (attrs.find? (fun p => p.1 = k)).map (fun p => p.2)

/-- JS object assignment: overwrite an existing key in place, otherwise
append in insertion order. -/
def setAttr (attrs : List (String × PropVal)) (k : String) (v : PropVal) :
    List (String × PropVal) :=
  if attrs.any (fun p => p.1 = k) then
    attrs.map (fun p => if p.1 = k then (k, v) else p)
  else attrs ++ [(k, v)]

def UINode.withAttr (n : UINode) (k : String) (v : PropVal) : UINode :=
  match n with
  | .mk nm t a c => .mk nm t (setAttr a k v) c

/-- `allocRef(ctx, node, prefix)` from `compile.ts`: reuse the node's
`ref` attribute if it is truthy, otherwise generate `<prefix><n>` from
the component's ref count; push the name onto `ctx.refs` and store it on
the node. -/
def allocRef (st : CState) (node : UINode) (pre : String) :
    String × UINode × CState :=
  let ref := match getAttr node.attributes "ref" with
    | some (.pstr s) => if s ≠ "" then s else pre ++ toString st.comp.refs.length
    | _ => pre ++ toString st.comp.refs.length
  (ref, node.withAttr "ref" (.pstr ref),
   { st with comp := { st.comp with refs := st.comp.refs ++ [ref] } })

/-- `toDashCase` from `compile.ts`. -/
def toDashCase (s : String) : String :=
  String.join (s.data.map (fun c =>
    if c.isUpper then "-" ++ String.singleton c.toLower
    else String.singleton c))

/-- The identifier a style value compiles to. -/
def styleIdentify : StyleVal → String
  | .sbind b => b.name
  | .snum n => "\"" ++ toString n ++ "\""
  | .sstr s => "\"" ++ s ++ "\""
  | .sother tname => "unknown_" ++ tname

/-- `transformNodeStyle` from `compile.ts`: allocate (or reuse) the
node's reference and emit one `ui_widget_set_style_string` call per style
entry, with the key converted to dash-case. -/
def transformNodeStyle (node : UINode) (style : List (String × StyleVal))
    (st : CState) : Except String (UINode × CState) := do
  if !componentContextOk st then
    .error "The createState function must be called in a component function"
  else
    let (ref, node, st) := allocRef st node "ref_"
    let st := pushCompBody st (style.map (fun p =>
      "ui_widget_set_style_string(_that->refs." ++ ref ++ ", \"" ++
        toDashCase p.1 ++ "\", " ++ styleIdentify p.2 ++ ")"))
    .ok (node, st)

/-- `useState` from `useState.ts`.  Returns the state binding; the
accompanying setter closure is modelled by the `HOp.setState` operation.
For an `ObjectBinding` initial value this performs state promotion:
remove the binding's local declaration (by object identity), drop every
body statement that starts with the binding's old name, rename the
binding to `_that->state.<name>` and append it to the state list. -/
def useState (initialValue : Value) (valueType : Option CType)
    (st : CState) : Except String (ObjBinding × CState) := do
  if !componentContextOk st then
    .error "The createState function must be called in a component function"
  else
    let comp := st.comp
    let stateName := match comp.stateNames.get? comp.state.length with
      | some s => if s = "" then "unnamed_state_" ++ toString comp.state.length
        else s
      | none => "unnamed_state_" ++ toString comp.state.length
    let stateCName := "_that->state." ++ stateName
    match initialValue with
    | .vbinding b =>
        let fc := comp.fc
        let newLocals := fc.locals.filter (fun l => l.initializer.id ≠ b.id)
        let newBody := fc.body.filter (fun line => !strStartsWith line b.name)
        let fc2 := { fc with locals := newLocals, body := newBody }
        let value := b.withName stateCName
        let comp2 :=
          { comp with fc := fc2, state := comp.state ++ [⟨stateName, value⟩] }
        .ok (value, { st with comp := comp2 })
    | .vbool _ =>
        let value := createBooleanBinding comp.fc.nextId stateCName
        let fc2 := { comp.fc with nextId := comp.fc.nextId + 1 }
        let comp2 :=
          { comp with fc := fc2, state := comp.state ++ [⟨stateName, value⟩] }
        .ok (value, { st with comp := comp2 })
    | .vstr s =>
        let value := createStringBinding comp.fc.nextId stateCName (some s)
        let fc2 := { comp.fc with nextId := comp.fc.nextId + 1 }
        let comp2 :=
          { comp with fc := fc2, state := comp.state ++ [⟨stateName, value⟩] }
        .ok (value, { st with comp := comp2 })
    | .vnum n =>
        match valueType with
        | some vt =>
            if isNumericType vt then
              let value := createNumericBinding comp.fc.nextId stateCName n vt
              let fc2 := { comp.fc with nextId := comp.fc.nextId + 1 }
              let newState := comp.state ++ [⟨stateName, value⟩]
              let comp2 := { comp with fc := fc2, state := newState }
              .ok (value, { st with comp := comp2 })
            else .error "Unsupported type: number"
        | none => .error "Unsupported type: number"
    | v => .error ("Unsupported type: " ++ typeofValue v)

/-- `compileComponentMethod` from `binding.ts` (`compiler` version), with
its optional arguments passed positionally: the component supplies the
class name; the body is the given statement list or the context's body;
when the context has a state operation, a final
`<class>_react_update(<thatId>)` statement is appended. -/
def compileComponentMethod (comp : ComponentContext)
    (ctx : Option FunctionContext) (name : Option String) (args : String)
    (body : Option (List String)) (thatId : String) : Except String String :=
  let className := comp.fc.name
  let fnName := match name with
    | some n => if n ≠ "" then n
      else (match ctx with
        | some c => if c.name ≠ "" then c.name else "unnamed_func"
        | none => "unnamed_func")
    | none => match ctx with
      | some c => if c.name ≠ "" then c.name else "unnamed_func"
      | none => "unnamed_func"
  let bodyStmts := match body with
    | some b => b
    | none => match ctx with
      | some c => c.body
      | none => []
  let locals := match ctx with
    | some c => c.locals
    | none => []
  let hasStateOp := match ctx with
    | some c => c.hasStateOperation
    | none => false
  compileFunction locals
    ("static void " ++ className ++ "_" ++ fnName ++ "(ui_widget_t *w" ++
      args ++ ")")
    ([className ++ "_react_t *_that = ui_widget_get_data(" ++ thatId ++
        ", " ++ className ++ "_proto)"] ++
      bodyStmts ++
      (if hasStateOp then [className ++ "_react_update(" ++ thatId ++ ")"]
       else []))

/-- The `ui_widget_on` registration statements emitted into
`<class>_react_init_events`: one per recorded `EventHandlerDeclaration`,
each targeting that declaration's reference. -/
def eventRegistrationStmts (comp : ComponentContext) : List String :=
  comp.eventHandlers.map (fun item =>
    "ui_widget_on(" ++ item.target ++ ", \"" ++ item.eventName ++ "\", " ++
      (match item.handler with
        | .named s => s
        | .fn _ => comp.fc.name ++ "_" ++ item.context.name) ++ ", w)")

/-- `compileComponentEventHandlers` from `binding.ts`: one compiled method
(or extern declaration) per recorded handler, then the
`react_init_events` registration method. -/
def compileComponentEventHandlers (comp : ComponentContext) :
    Except String String := do
  let handlers ← comp.eventHandlers.mapM (fun item =>
    match item.handler with
    | .named s =>
        .ok ("static void " ++ s ++ "(ui_widget_t *w, ui_event_t *e, void *arg);")
    | .fn _ =>
        compileComponentMethod comp (some item.context) none
          ", ui_event_t *e, void *arg" none "e->data")
  let initEvents ← compileComponentMethod comp none (some "react_init_events")
    "" (some (eventRegistrationStmts comp)) "w"
  .ok (String.intercalate "\n\n" (handlers ++ [initEvents]))

/-- `transformEventHandler` from `compile.ts`: allocate (or reuse) the
node's reference, then look the handler up by function identity.  A hit
returns the previously generated name without re-tracing; otherwise a
declaration named `handle_<tag>_<event>_<n>` is recorded and the handler
body is traced once into its own fresh context via `call`. -/
def transformEventHandler (node : UINode) (eventName : String) (h : Handler)
    (st : CState) : Except String (String × UINode × CState) := do
  if !componentContextOk st then
    .error "The createState function must be called in a component function"
  else
    let (ref, node, st) := allocRef st node "ref_"
    match st.comp.eventHandlers.find? (fun item => item.handler.matches h) with
    | some decl => .ok (decl.context.name, node, st)
    | none =>
        let name := String.intercalate "_"
          ["handle", node.name, eventName,
            toString st.comp.eventHandlers.length]
        let hctx := createFunctionContext name
        let decl : EventHandlerDecl :=
          { eventName := eventName, target := ref, handler := .fn h,
            context := hctx }
        let comp2 :=
          { st.comp with eventHandlers := st.comp.eventHandlers ++ [decl] }
        let st := { st with comp := comp2 }
        let (traced, st) ← callTrace h hctx st
        -- the traced context object is the one stored in the declaration
        let comp3 :=
          { st.comp with eventHandlers := st.comp.eventHandlers.dropLast ++
              [{ decl with context := traced }] }
        .ok (name, node, { st with comp := comp3 })

/-- One collected child of `transformNodeChildren`'s classification loop:
a literal rendered to text, an unwrapped `JSXObjectBinding` value, a
nested element, or JS `undefined`. -/
inductive ChildItem where
  | cstr : String → ChildItem
  | cbind : ObjBinding → ChildItem
  | celem : RElement → ChildItem
  | cundefined : ChildItem

/-- One step of the `React.Children.forEach` classification loop of
`transformNodeChildren`: literals keep `isPureText`;
any valid element clears it; a `JSXObjectBinding` element contributes its
`value` prop and keeps `needFormat`; any other element clears
`needFormat`.  Non-element objects and booleans are skipped. -/
def classifyStep (acc : Bool × Bool × List ChildItem) (child : ReactNode) :
    Bool × Bool × List ChildItem :=
  let (isPureText, needFormat, items) := acc
  match child with
  | .rstr s => (isPureText, needFormat, items ++ [.cstr s])
  | .rnum n => (isPureText, needFormat, items ++ [.cstr (toString n)])
  | .relem el =>
      match el.rtype with
      | .rjsxBinding =>
          (false, needFormat,
           items ++ [match getAttr el.props "value" with
             | some (.pbinding b) => ChildItem.cbind b
             | _ => ChildItem.cundefined])
      | _ => (false, false, items ++ [.celem el])
  | _ => acc

/-- The full classification loop. -/
def classifyChildren (children : List ReactNode) :
    Bool × Bool × List ChildItem :=
  children.foldl classifyStep (true, true, [])

/-- The text a collected child contributes to `children.join("")` (in the
pure-text branch every item is a `cstr`). -/
def childItemText : ChildItem → String
  | .cstr s => s
  | _ => ""

/-- The traced `Value` a collected child denotes when passed to `fmt`. -/
def childItemValue : ChildItem → Value
  | .cstr s => .vstr s
  | .cbind b => .vbinding b
  | .celem _ => .vother
  | .cundefined => .vundefined

/-- The `children` prop as the list `React.Children.forEach` iterates:
a single literal child counts as a one-element list. -/
def asChildren : PropVal → List ReactNode
  | .pchildren cs => cs
  | .pstr s => [.rstr s]
  | .pnum n => [.rnum n]
  | .pbool b => [.rbool b]
  | .pbinding b => [.rbinding b]
  | .pundefined => []
  | _ => [.rother]

/-- `typeof el.type === "string" ? el.type : el.type.name`, recorded into
a referenced widget instance's `type`. -/
def elTypeName (e : RElement) : String :=
  match e.rtype with
  | .rtag t => t
  | .rjsxBinding => "JSXObjectBinding"
  | .rfragment => "Fragment"
  | .rcomp c => c.cname

/-- The attribute-renaming table of `transformReactNode`. -/
def renameAttrKey (k : String) : String :=
  if k = "className" then "class" else if k = "$ref" then "ref" else k

/-- The generic prop pass of `transformReactNode`: rename keys, skip
`children` and `style`, collect `on*` keys for event compilation, copy the
remaining defined values onto the node's attributes. -/
def collectProps (props : List (String × PropVal)) (node : UINode) :
    UINode × List String :=
  props.foldl (fun acc p =>
    let (node, hns) := acc
    let key := renameAttrKey p.1
    if key = "children" ∨ key = "style" then acc
    else if strStartsWith key "on" then (node, hns ++ [key])
    else match p.2 with
      | .pundefined => acc
      | v => (node.withAttr key v, hns)) (node, [])

/-- The reference unwrap of `transformReactNode`: a truthy non-string
`ref` attribute (a `useRef` result) is replaced by its allocated name,
and the referenced widget instance records the element's type. -/
def unwrapRefAttr (e : RElement) (node : UINode) (st : CState) :
    UINode × CState :=
  match getAttr node.attributes "ref" with
  | some r =>
      if truthy r then
        match r with
        | .prefobj rname instId =>
            (node.withAttr "ref" (.pstr rname),
             { st with instTypes := st.instTypes ++ [(instId, elTypeName e)] })
        | _ => (node, st)
      else (node, st)
  | none => (node, st)

/-- The event-compilation pass of `transformReactNode`: for each deferred
`on*` prop in order, register the handler on the node under the
lower-cased event name. -/
def applyEventHandlers (e : RElement) (names : List String) (node : UINode)
    (st : CState) : Except String (UINode × CState) :=
  match names with
  | [] => .ok (node, st)
  | n :: rest => do
      let ev := eventNameOf n
      match getAttr e.props n with
      | some (.phandler h) => do
          let (_, node, st) ← transformEventHandler node ev h st
          applyEventHandlers e rest node st
      | _ => .error "The event handler must be a function"

/-- The native tag of an intrinsic element (`div`/`w`/`widget` collapse to
`widget`). -/
def intrinsicTagName (t : String) : String :=
  if t = "div" ∨ t = "w" ∨ t = "widget" then "widget" else t

/-- JS `displayName || name` (an empty display name is falsy). -/
def componentDisplayName (c : RComponent) : String :=
  match c.displayName with
  | some d => if d ≠ "" then d else c.cname
  | none => c.cname

mutual
/-- `transformReactNode` from `compile.ts`.  `fuel` bounds the recursion
depth of the embedding; every source-level recursive call consumes one
unit.  Non-elements transform to `undefined`; fragments abort the
compilation; pre-renderable components are invoked and transformed in
place. -/
def transformReactNode (fuel : Nat) (el : ReactNode) (st : CState) :
    Except String (Option UINode × CState) :=
  match fuel with
  | 0 => .error "fuel exhausted"
  | fuel + 1 =>
    match el with
    | .relem e =>
        match e.rtype with
        | .rfragment => .error "React.Fragment is not supported"
        | .rtag t =>
            transformElementRest fuel e ((createNode "").withName
              (intrinsicTagName t)) st
        | .rjsxBinding =>
            transformElementRest fuel e ((createNode "").withName
              "JSXObjectBinding") st
        | .rcomp c =>
            if c.shouldPreRender then
              transformReactNode fuel (.relem c.rendered) st
            else
              transformElementRest fuel e ((createNode "").withName
                (componentDisplayName c)) st
    | _ => .ok (none, st)

/-- The element-processing tail of `transformReactNode`: the generic prop
pass, the reference unwrap, children, style, then event handlers. -/
def transformElementRest (fuel : Nat) (e : RElement) (node : UINode)
    (st : CState) : Except String (Option UINode × CState) :=
  match fuel with
  | 0 => .error "fuel exhausted"
  | fuel + 1 => do
    let (node, handlerNames) := collectProps e.props node
    let (node, st) := unwrapRefAttr e node st
    let (node, st) ←
      match getAttr e.props "children" with
      | some cv =>
          if truthy cv then transformNodeChildren fuel node (asChildren cv) st
          else .ok (node, st)
      | none => .ok (node, st)
    let (node, st) ←
      match getAttr e.props "style" with
      | some sv =>
          if truthy sv then
            match sv with
            | .pstyle es => transformNodeStyle node es st
            | .pbinding _ => transformNodeStyle node [] st
            | .prefobj _ _ => transformNodeStyle node [] st
            | .pchildren _ => transformNodeStyle node [] st
            | v => .error ("The style attribute value must be an object, not "
                ++ typeofProp v)
          else .ok (node, st)
      | none => .ok (node, st)
    let (node, st) ← applyEventHandlers e handlerNames node st
    .ok (some node, st)

/-- `transformNodeChildren` from `compile.ts`: classify the children; a
pure-literal list becomes the node's static text; a list of literals and
symbolic values runs through `fmt` and one `ui_widget_set_text` against a
fresh `text_ref`; otherwise every child is lowered individually. -/
def transformNodeChildren (fuel : Nat) (node : UINode)
    (rawChildren : List ReactNode) (st : CState) :
    Except String (UINode × CState) :=
  match fuel with
  | 0 => .error "fuel exhausted"
  | fuel + 1 =>
    let (isPureText, needFormat, children) := classifyChildren rawChildren
    if isPureText then
      .ok (node.withText (String.join (children.map childItemText)), st)
    else if !componentContextOk st then
      .error "The createState function must be called in a component function"
    else if needFormat then do
      let (str, st) ← modifyActiveV (fmt (children.map childItemValue)) st
      let (ref, node, st) := allocRef st node "text_ref"
      let st := pushCompBody st
        ["ui_widget_set_text(_that->refs." ++ ref ++ ", " ++ str.name ++ ")"]
      .ok (node, st)
    else do
      let (kids, st) ← transformChildItems fuel children st
      .ok (node.withChildren kids, st)

/-- The per-child lowering of `transformNodeChildren`'s mixed branch:
literal strings become static text nodes, symbolic values become text
nodes bound through `fmt` plus `ui_widget_set_text`, elements recurse,
`undefined` children stay `undefined`. -/
def transformChildItems (fuel : Nat) (items : List ChildItem) (st : CState) :
    Except String (List (Option UINode) × CState) :=
  match fuel with
  | 0 => .error "fuel exhausted"
  | fuel + 1 =>
    match items with
    | [] => .ok ([], st)
    | item :: rest => do
        let (kid, st) ←
          match item with
          | .cstr s =>
              .ok ((some ((createNode "text").withText s) : Option UINode), st)
          | .cbind b => do
              let (str, st) ← modifyActiveV (fmt [.vbinding b]) st
              let childNode := createNode "text"
              let (ref, childNode, st) := allocRef st childNode "ref_"
              let st := pushCompBody st
                ["ui_widget_set_text(_that->refs." ++ ref ++ ", " ++
                  str.name ++ ")"]
              .ok (some childNode, st)
          | .celem e => transformReactNode fuel (.relem e) st
          | .cundefined => transformReactNode fuel .rother st
        let (kids, st) ← transformChildItems fuel rest st
        .ok (kid :: kids, st)
end

/-- The `FunctionContext` part of the `ComponentContext` literal built at
the start of `compile` in `compile.ts`. -/
def createComponentFc (name : String) : FunctionContext :=
  { kind := "ComponentContext", name := name, locals := [], body := [],
    hasStateOperation := false, nextId := 0 }

/-- The `ComponentContext` literal built by `compile` in `compile.ts`.
`stateNames`/`refNames` are supplied directly: in the source they are
inferred by `parseHookValueNames`, a textual scan of the component
function's source, which has no counterpart in this embedding. -/
def createComponentContext (name : String) (stateNames refNames : List String) :
    ComponentContext :=
  { fc := createComponentFc name, state := [], stateNames := stateNames,
    refNames := refNames, eventHandlers := [], refs := [], headerFiles := [] }

/-- `setComponentContext` from `binding.ts`: `contextList = [ctx]`. -/
def setComponentContext (c : ComponentContext) : CState :=
  { comp := c, fstack := [], instTypes := [] }

/-- The context reached inside `fmt` after allocating the result string
and its length accumulator, before the arguments are stringified. -/
def fmtPreCtx (ctx : FunctionContext) : FunctionContext :=
  (createNumericVariable
    (some ((createStringVariable none ctx).1.name ++ "_len")) 8 CType.Size
    (createStringVariable none ctx).2).2

/-! Concrete scenario data used by witnesses and counterexamples. -/

/-- A fresh compilation state for a component named `App`, as `compile`
sets it up. -/
def appState : CState := setComponentContext (createComponentContext "App" [] [])

/-- A string-typed local binding `str_0` initialized from the literal
`"a"`. -/
def c1strB : ObjBinding := .mk 0 "str_0" CType.String false (some (.strLit "\"a\""))

/-- An object binding `obj_1` initialized by constructing a `foo`. -/
def c1objB : ObjBinding := .mk 1 "obj_1" CType.Object false (some (.newExpr "foo" []))

/-- A two-local context: one owning string, one constructed object. -/
def c1locals : List VariableDeclaration := [⟨"str_0", c1strB⟩, ⟨"obj_1", c1objB⟩]

/-- An `int`-typed symbolic binding named `count` (no initializer). -/
def c2intBinding : ObjBinding := .mk 100 "count" CType.Int false none

/-- An opaque-object binding `obj_0` of constructed type `foo`. -/
def c7binding : ObjBinding := .mk 0 "obj_0" CType.Object false (some (.newExpr "foo" []))

/-- A string-typed state binding, as `useState("World")` creates it. -/
def c4stateB : ObjBinding :=
  .mk 50 "_that->state.name" CType.String false (some (.strLit "\"World\""))

/-- The handler context traced for a handler that sets the string state
to `"x"`. -/
def c4c1 : Except String FunctionContext :=
  runOps [.setState c4stateB (.vstr "x")]
    (createFunctionContext "handle_widget_click_0")

/-- A handler function object (identity 7, empty body). -/
def c5h : Handler := ⟨7, []⟩

/-- Register `c5h` for `click` on a `widget` element. -/
def c5step1 : Except String (String × UINode × CState) :=
  transformEventHandler (createNode "widget") "click" c5h appState

/-- Then register the identical handler on a second, `button` element. -/
def c5step2 : Except String (String × UINode × CState) :=
  match c5step1 with
  | .ok (_, _, st1) => transformEventHandler (createNode "button") "click" c5h st1
  | .error e => .error e

/-- An object local `obj_0` of constructed type `foo`. -/
def c6objB : ObjBinding := .mk 0 "obj_0" CType.Object false (some (.newExpr "foo" []))

/-- A component context that has declared `obj_0` as a local and emitted
two statements mentioning it: one starting with its name, one merely
referencing it as a call argument. -/
def c6fc : FunctionContext :=
  { kind := "ComponentContext", name := "App", locals := [⟨"obj_0", c6objB⟩],
    body := ["obj_0->x = 1", "foo(obj_0)"], hasStateOperation := false,
    nextId := 1 }

/-- The `CState` wrapping `c6fc`, with one inferred state name. -/
def c6st : CState :=
  setComponentContext
    { fc := c6fc, state := [], stateNames := ["myobj"], refNames := [],
      eventHandlers := [], refs := [], headerFiles := [] }

/-- The binding returned by the `c6st` promotion. -/
def c6ret : ObjBinding := c6objB.withName "_that->state.myobj"

/-- The component function context after the `c6st` promotion. -/
def c6fcAfter : FunctionContext :=
  { kind := "ComponentContext", name := "App", locals := [],
    body := ["foo(obj_0)"], hasStateOperation := false, nextId := 1 }

/-- The state after the `c6st` promotion. -/
def c6stAfter : CState :=
  { comp :=
      { fc := c6fcAfter, state := [⟨"myobj", c6ret⟩], stateNames := ["myobj"],
        refNames := [], eventHandlers := [], refs := [], headerFiles := [] },
    fstack := [], instTypes := [] }

/-- The handler context produced by tracing `setName("x")` on a string
state, starting from a fresh handler context. -/
def c4c1x : FunctionContext :=
  { kind := "FunctionContext", name := "handle_widget_click_0",
    locals := [⟨"str_0", .mk 0 "str_0" CType.String false
      (some (.strLit "\"x\""))⟩],
    body := ["free(_that->state.name)", "_that->state.name = str_0"],
    hasStateOperation := true, nextId := 1 }

/-- A fresh function context named `f`. -/
def ctx0f : FunctionContext := createFunctionContext "f"

/-- The result binding of `fmt("a")` in `ctx0f`. -/
def c2retx : ObjBinding := .mk 0 "str_0" CType.String false (some (.strLit "NULL"))

/-- The context after `fmt("a")` in `ctx0f`. -/
def c2ctxFx : FunctionContext :=
  { kind := "FunctionContext", name := "f",
    locals := [⟨"str_0", c2retx⟩,
      ⟨"str_0_len", .mk 1 "str_0_len" CType.Size false
        (some (.numLit "8" CType.Size))⟩,
      ⟨"str_2", .mk 2 "str_2" CType.String false (some (.strLit "\"a\""))⟩],
    body := ["str_0_len += strlen(str_2)",
      "str_0 = malloc(sizeof(char) * str_0_len)", "strcpy(str_0, str_2)"],
    hasStateOperation := false, nextId := 3 }

/-- The event-handler declaration recorded by `c5step1`. -/
def c5decl0 : EventHandlerDecl :=
  { eventName := "click", target := "ref_0", handler := .fn c5h,
    context := createFunctionContext "handle_widget_click_0" }

/-- A compilation state in which `c5h` is already registered for `click`
on a `widget` element (the state `c5step1` reaches). -/
def c5st1 : CState :=
  { comp :=
      { fc := createComponentFc "App", state := [], stateNames := [],
        refNames := [], eventHandlers := [c5decl0], refs := ["ref_0"],
        headerFiles := [] },
    fstack := [], instTypes := [] }

/-- Split a string at newline characters (structurally, so that it
reduces on concrete emitter output). -/
def splitNlAux : List Char → List (List Char)
  | [] => [[]]
  | c :: cs =>
      let r := splitNlAux cs
      if c = '\n' then [] :: r else (c :: r.headD []) :: r.tail

/-- The lines of an emitted function's source text. -/
def linesOf (s : String) : List String := (splitNlAux s.data).map String.mk

/-- Is this child a literal string or number? -/
def isLiteralChild : ReactNode → Bool
  | .rstr _ => true
  | .rnum _ => true
  | _ => false

/-- The text a literal child renders to (`${child}`: numbers print in
decimal). -/
def literalText : ReactNode → String
  | .rstr s => s
  | .rnum n => toString n
  | _ => ""

/-- Structural-recursion presentation of `List.mapM` over `Except`,
convenient for induction. -/
def mapME {α β : Type} (f : α → Except String β) : List α → Except String (List β)
  | [] => .ok []
  | a :: as => do
      let b ← f a
      let bs ← mapME f as
      .ok (b :: bs)

/-! Helper lemmas. -/

theorem mapM_eq_mapME {α β : Type} (f : α → Except String β) :
    ∀ l : List α, l.mapM f = mapME f l := by
  intro l
  induction l with
  | nil => rfl
  | cons a as ih =>
      rw [List.mapM_cons, mapME, ih]
      rfl

theorem mapME_ok_length {α β : Type} (f : α → Except String β) :
    ∀ (l : List α) (ys : List β), mapME f l = .ok ys → ys.length = l.length := by
  intro l
  induction l with
  | nil =>
      intro ys h
      simp only [mapME] at h
      cases h
      rfl
  | cons a as ih =>
      intro ys h
      simp only [mapME] at h
      cases hfa : f a with
      | error e => rw [hfa] at h; exact absurd h (by simp [Bind.bind, Except.bind])
      | ok b =>
          rw [hfa] at h
          cases hrest : mapME f as with
          | error e =>
              rw [hrest] at h
              exact absurd h (by simp [Bind.bind, Except.bind])
          | ok bs =>
              rw [hrest] at h
              simp only [Bind.bind, Except.bind] at h
              cases h
              simp [ih bs hrest]

theorem mapME_ok_get {α β : Type} (f : α → Except String β) :
    ∀ (l : List α) (ys : List β), mapME f l = .ok ys →
      ∀ (i : Nat) (hi : i < l.length) (hy : i < ys.length),
        f (l.get ⟨i, hi⟩) = .ok (ys.get ⟨i, hy⟩) := by
  intro l
  induction l with
  | nil => intro ys h i hi; exact absurd hi (by simp)
  | cons a as ih =>
      intro ys h i hi hy
      simp only [mapME] at h
      cases hfa : f a with
      | error e => rw [hfa] at h; exact absurd h (by simp [Bind.bind, Except.bind])
      | ok b =>
          rw [hfa] at h
          cases hrest : mapME f as with
          | error e =>
              rw [hrest] at h
              exact absurd h (by simp [Bind.bind, Except.bind])
          | ok bs =>
              rw [hrest] at h
              simp only [Bind.bind, Except.bind] at h
              cases h
              cases i with
              | zero => simpa using hfa
              | succ j =>
                  exact ih bs hrest j (Nat.lt_of_succ_lt_succ hi)
                    (Nat.lt_of_succ_lt_succ hy)

theorem formatFuncBody_drop_empty (xs ys : List String) :
    formatFuncBody (xs ++ "" :: ys) = formatFuncBody (xs ++ ys) := by
  simp [formatFuncBody]

theorem stringifyValues_length :
    ∀ (args : List Value) (c : FunctionContext) (names : List String)
      (c2 : FunctionContext),
      stringifyValues args c = .ok (names, c2) → names.length = args.length := by
  intro args
  induction args with
  | nil =>
      intro c names c2 h
      simp only [stringifyValues] at h
      cases h
      rfl
  | cons v vs ih =>
      intro c names c2 h
      simp only [stringifyValues] at h
      cases hv : stringifyValue v c with
      | error e =>
          rw [hv] at h
          simp only [Bind.bind, Except.bind] at h
          exact Except.noConfusion h
      | ok p =>
          rw [hv] at h
          simp only [Bind.bind, Except.bind] at h
          cases hrest : stringifyValues vs p.2 with
          | error e =>
              rw [hrest] at h
              exact Except.noConfusion h
          | ok q =>
              rw [hrest] at h
              simp only at h
              cases h
              simp [ih p.2 q.1 q.2 hrest]

theorem stringifyBinding_flag (b : ObjBinding) (c c2 : FunctionContext)
    (ret : ObjBinding) (h : stringifyBinding b c = .ok (ret, c2)) :
    c2.hasStateOperation = c.hasStateOperation := by
  cases hb : b.ctype <;> simp only [stringifyBinding, hb] at h
  case String => cases h; rfl
  case Object =>
      cases hty : getObjectTypeName b with
      | error e =>
          rw [hty] at h
          simp only [Bind.bind, Except.bind] at h
          exact Except.noConfusion h
      | ok tn =>
          rw [hty] at h
          simp only [Bind.bind, Except.bind, createStringVariable, pushBody] at h
          cases h
          rfl
  case Double => cases h; rfl
  case Int => cases h; rfl
  case Size => cases h; rfl
  case Unknown => exact Except.noConfusion h
  case Boolean => exact Except.noConfusion h

theorem stringifyValue_flag (v : Value) (c c2 : FunctionContext)
    (ret : ObjBinding) (h : stringifyValue v c = .ok (ret, c2)) :
    c2.hasStateOperation = c.hasStateOperation := by
  cases v <;> simp only [stringifyValue] at h
  case vstr s => cases h; rfl
  case vnum n => cases h; rfl
  case vbool b => cases h; rfl
  case vnull => cases h; rfl
  case vundefined => cases h; rfl
  case vbinding b => exact stringifyBinding_flag b c c2 ret h
  case vother => cases h

theorem setObjectBindingValue_flag (obj : ObjBinding) (v : Value)
    (c c2 : FunctionContext) (h : setObjectBindingValue obj v c = .ok c2) :
    c2.hasStateOperation = true := by
  simp only [setObjectBindingValue] at h
  by_cases hs : isString obj = true
  · simp only [hs, if_pos] at h
    cases hv : stringifyValue v { c with hasStateOperation := true } with
    | error e => rw [hv] at h; exact absurd h (by simp [Bind.bind, Except.bind])
    | ok p =>
        rw [hv] at h
        cases hd : compileObjectDestroyer obj with
        | error e =>
            rw [hd] at h
            exact absurd h (by simp [Bind.bind, Except.bind])
        | ok dstmt =>
            rw [hd] at h
            simp only [Bind.bind, Except.bind] at h
            cases h
            have := stringifyValue_flag v _ p.2 p.1 (by rw [hv])
            simpa [pushBody] using this
  · simp only [hs] at h
    by_cases hn : isNumeric obj = true
    · simp only [hn, if_pos] at h
      cases hr : numericRight v with
      | error e => rw [hr] at h; exact absurd h (by simp [Bind.bind, Except.bind])
      | ok r =>
          rw [hr] at h
          simp only [Bind.bind, Except.bind] at h
          cases h
          rfl
    · simp only [hn] at h
      exact absurd h (by simp [Bind.bind, Except.bind])

theorem runOp_flag_mono (op : HOp) (c c2 : FunctionContext)
    (h : runOp op c = .ok c2) (hc : c.hasStateOperation = true) :
    c2.hasStateOperation = true := by
  cases op with
  | setState t v => exact setObjectBindingValue_flag t v c c2 h
  | invokeBinding t args =>
      simp only [runOp] at h
      cases h
      simpa [pushBody] using hc

theorem runOps_flag_mono :
    ∀ (prog : List HOp) (c c2 : FunctionContext),
      runOps prog c = .ok c2 → c.hasStateOperation = true →
        c2.hasStateOperation = true := by
  intro prog
  induction prog with
  | nil =>
      intro c c2 h hc
      simp only [runOps] at h
      cases h
      exact hc
  | cons op rest ih =>
      intro c c2 h hc
      simp only [runOps] at h
      cases hop : runOp op c with
      | error e => rw [hop] at h; exact absurd h (by simp [Bind.bind, Except.bind])
      | ok cmid =>
          rw [hop] at h
          simp only [Bind.bind, Except.bind] at h
          exact ih cmid c2 h (runOp_flag_mono op c cmid hop hc)

theorem runOps_setState_flag :
    ∀ (prog : List HOp) (t : ObjBinding) (v : Value) (c c2 : FunctionContext),
      HOp.setState t v ∈ prog → runOps prog c = .ok c2 →
        c2.hasStateOperation = true := by
  intro prog
  induction prog with
  | nil => intro t v c c2 hmem; exact absurd hmem (by simp)
  | cons op rest ih =>
      intro t v c c2 hmem h
      simp only [runOps] at h
      cases hop : runOp op c with
      | error e => rw [hop] at h; exact absurd h (by simp [Bind.bind, Except.bind])
      | ok cmid =>
          rw [hop] at h
          simp only [Bind.bind, Except.bind] at h
          rcases List.mem_cons.mp hmem with heq | hmem2
          · subst heq
            exact runOps_flag_mono rest cmid c2 h
              (setObjectBindingValue_flag t v c cmid hop)
          · exact ih t v cmid c2 hmem2 h

theorem classify_fold_lit :
    ∀ (children : List ReactNode),
      (∀ c ∈ children, isLiteralChild c = true) →
      ∀ (p q : Bool) (items : List ChildItem),
        children.foldl classifyStep (p, q, items) =
          (p, q, items ++ children.map (fun c => ChildItem.cstr (literalText c))) := by
  intro children
  induction children with
  | nil => intro _ p q items; simp
  | cons c cs ih =>
      intro h p q items
      have hc := h c (List.mem_cons_self c cs)
      have hcs : ∀ x ∈ cs, isLiteralChild x = true :=
        fun x hx => h x (List.mem_cons_of_mem c hx)
      cases c with
      | rstr s => simp [classifyStep, ih hcs, literalText]
      | rnum n => simp [classifyStep, ih hcs, literalText]
      | rbool b => simp [isLiteralChild] at hc
      | rnull => simp [isLiteralChild] at hc
      | rbinding b => simp [isLiteralChild] at hc
      | rother => simp [isLiteralChild] at hc
      | relem e => simp [isLiteralChild] at hc

theorem keepAlive_withKeepAlive (b : ObjBinding) (k : Bool) :
    (b.withKeepAlive k).keepAlive = k := by
  cases b; rfl

theorem id_withKeepAlive (b : ObjBinding) (k : Bool) :
    (b.withKeepAlive k).id = b.id := by
  cases b; rfl

theorem mem_map_keepAlive (locals : List VariableDeclaration) (b : ObjBinding)
    (d : VariableDeclaration)
    (hd : d ∈ locals.map (fun d0 =>
      if d0.initializer.id = b.id then
        { d0 with initializer := b.withKeepAlive true }
      else d0))
    (hid : d.initializer.id = (b.withKeepAlive true).id) :
    d.initializer.keepAlive = true := by
  rw [List.mem_map] at hd
  obtain ⟨d0, _, rfl⟩ := hd
  by_cases hc : d0.initializer.id = b.id
  · simp [hc, keepAlive_withKeepAlive]
  · rw [if_neg hc] at hid ⊢
    rw [id_withKeepAlive] at hid
    exact absurd hid hc

/-! Claim theorems. -/

/-- C10: `popFunctionComponent(ctx)` appends `ctx` to the context stack,
so it grows the stack by one; a `pushFunctionComponent` /
`popFunctionComponent` pair leaves the stack two entries deeper instead
of restoring it; only the internal `call` helper, whose traced body
preserves the stack's length, restores the original length by an actual
pop. -/
theorem spec_C10 (ctx ctx2 : FunctionContext) (l : List FunctionContext)
    (f : List FunctionContext → List FunctionContext)
    (hf : ∀ s, (f s).length = s.length) :
    popFunctionComponent ctx l = l ++ [ctx] ∧
    (popFunctionComponent ctx l).length = l.length + 1 ∧
    (popFunctionComponent ctx2 (pushFunctionComponent ctx l)).length =
      l.length + 2 ∧
    (call f ctx l).length = l.length := by
  refine ⟨rfl, by simp [popFunctionComponent], by
    simp [popFunctionComponent, pushFunctionComponent], ?_⟩
  simp [call, hf]

/-- C10 witness: instantiated at an empty stack and an effect-free traced
body. -/
theorem spec_C10_witness :
    popFunctionComponent (createFunctionContext "h") ([] : List FunctionContext)
        = ([] : List FunctionContext) ++ [createFunctionContext "h"] ∧
    (popFunctionComponent (createFunctionContext "h")
      ([] : List FunctionContext)).length =
      ([] : List FunctionContext).length + 1 ∧
    (popFunctionComponent (createFunctionContext "h")
      (pushFunctionComponent (createFunctionContext "h")
        ([] : List FunctionContext))).length =
      ([] : List FunctionContext).length + 2 ∧
    (call id (createFunctionContext "h") ([] : List FunctionContext)).length =
      ([] : List FunctionContext).length :=
  spec_C10 (createFunctionContext "h") (createFunctionContext "h") [] id
    (fun _ => rfl)

/-- C8: transforming an element whose type is `React.Fragment` fails
synchronously with the fatal `React.Fragment is not supported` error: no
`Node` is produced and no statement is emitted (the error is raised
before the walker touches the compilation state). -/
theorem spec_C8 (fuel : Nat) (props : List (String × PropVal)) (st : CState) :
    transformReactNode (fuel + 1) (.relem (.mk .rfragment props)) st =
      .error "React.Fragment is not supported" := by
  rfl

/-- C7: evaluating `stringifyBinding` on an opaque-object binding shows
the missing-`return` fall-through: after emitting the
`foo_to_string` statement into `str_0`, the `CType.Object` case falls
into the `CType.Double` case, emitting a 32-byte `malloc`, an `%lf`
`snprintf` applied to the object, and a terminator store, and returns the
second buffer `str_1` instead of `str_0`. -/
theorem spec_C7 :
    (stringifyBinding c7binding (createFunctionContext "handler")).map
        (fun p => (p.1.name, p.2.body)) =
      .ok ("str_1",
        ["str_0 = foo_to_string(obj_0)",
         "str_1 = malloc(sizeof(char) * 32)",
         "snprintf(str_1, 31, \"%lf\", obj_0)",
         "str_1[31] = 0"]) ∧
    "str_1" ≠ "str_0" := by
  refine ⟨by rfl, by decide⟩

/-- C9: the string binding returned by
`WidgetInstance.getTextInputValue` is marked `keepAlive`, and so is the
binding stored in its local declaration; every `keepAlive` binding's
destroyer compiles to the empty string, which `formatFuncBody` drops, so
no `free`/destroy statement is emitted for that buffer at scope exit. -/
theorem spec_C9 (ident : String) (ctx : FunctionContext) (b : ObjBinding)
    (hb : b.keepAlive = true) :
    (getTextInputValue ident ctx).1.keepAlive = true ∧
    (∀ d ∈ (getTextInputValue ident ctx).2.locals,
      d.initializer.id = (getTextInputValue ident ctx).1.id →
        d.initializer.keepAlive = true) ∧
    compileObjectDestroyer b = .ok "" ∧
    (∀ xs ys : List String,
      formatFuncBody (xs ++ "" :: ys) = formatFuncBody (xs ++ ys)) := by
  refine ⟨rfl, ?_, ?_, formatFuncBody_drop_empty⟩
  · intro d hd hid
    simp only [getTextInputValue] at hd hid
    exact mem_map_keepAlive _ _ d hd hid
  · simp [compileObjectDestroyer, hb]

/-- C1: for every local in the emitted function whose owning binding has
a string-literal or construction initializer and is not `keepAlive`
(promoted bindings are no longer in `locals`), `compileFunction` emits
exactly one destroyer statement for it — `free(<name>)` for strings,
`<Type>_destroy(<name>)` for constructed objects — namely the entry of
the destroyer section at the local's own position, and that section is
placed after the body statements and before the closing brace. -/
theorem spec_C1 (locals : List VariableDeclaration) (signature : String)
    (body decls dests : List String) (i : Nat) (hi : i < locals.length)
    (hdecl : locals.mapM compileVariableDeclaration = .ok decls)
    (hdest : locals.mapM (fun d => compileObjectDestroyer d.initializer) =
      .ok dests)
    (hka : (locals.get ⟨i, hi⟩).initializer.keepAlive = false) :
    compileFunction locals signature body = .ok (String.intercalate "\n"
      (([signature, "\x7b", formatFuncBody decls, formatFuncBody body,
         formatFuncBody dests, "\x7d"]).filter (fun s => s ≠ ""))) ∧
    ∃ hy : i < dests.length,
      (∀ t, (locals.get ⟨i, hi⟩).initializer.initializer =
          some (.strLit t) →
        dests.get ⟨i, hy⟩ =
          "free(" ++ (locals.get ⟨i, hi⟩).initializer.name ++ ")") ∧
      (∀ tn cargs, (locals.get ⟨i, hi⟩).initializer.initializer =
          some (.newExpr tn cargs) →
        dests.get ⟨i, hy⟩ =
          getDestroyerName tn ++ "(" ++
            (locals.get ⟨i, hi⟩).initializer.name ++ ")") := by
  have hdestM : mapME (fun d => compileObjectDestroyer d.initializer) locals =
      .ok dests := by rw [← mapM_eq_mapME]; exact hdest
  have hlen := mapME_ok_length _ locals dests hdestM
  have hy : i < dests.length := by rw [hlen]; exact hi
  constructor
  · simp only [compileFunction, hdecl, hdest, Bind.bind, Except.bind]
  · refine ⟨hy, ?_, ?_⟩
    · intro t hinit
      have hget := mapME_ok_get _ locals dests hdestM i hi hy
      simp only [compileObjectDestroyer, hka, hinit] at hget
      exact (Except.ok.inj hget).symm
    · intro tn cargs hinit
      have hget := mapME_ok_get _ locals dests hdestM i hi hy
      simp only [compileObjectDestroyer, hka, hinit] at hget
      exact (Except.ok.inj hget).symm

/-- C1 witness: a context with one owning string local and one
constructed-object local; the emitted function destroys each exactly
once, after the body and before the closing brace. -/
theorem spec_C1_witness :
    ((c1locals.get ⟨0, by decide⟩).initializer.keepAlive = false) ∧
    c1locals.mapM (fun d => compileObjectDestroyer d.initializer) =
      .ok ["free(str_0)", "foo_destroy(obj_1)"] ∧
    compileFunction c1locals "static void f(void)" ["x()"] =
      .ok ("static void f(void)\n\x7b\n        char* str_0 = strdup2(\"a\");\n        foo obj_1 = foo_create();\n        x();\n        free(str_0);\n        foo_destroy(obj_1);\n\x7d") :=
  ⟨by rfl, by rfl,
    by exact (spec_C1 c1locals "static void f(void)" ["x()"]
      ["char* str_0 = strdup2(\"a\")", "foo obj_1 = foo_create()"]
      ["free(str_0)", "foo_destroy(obj_1)"] 0 (by decide) (by rfl) (by rfl)
      (by rfl)).1⟩

/-- C2 counterexample: calling `fmt` with a single symbolic `int`
argument appends six statements — the three stringification statements of
the argument come first — not the three (increment, allocation, copy)
statements the claim describes as the entire appended sequence. -/
theorem spec_C2_cex :
    (fmt [.vbinding c2intBinding] ctx0f).map (fun p => p.2.body) =
      .ok ["str_2 = malloc(sizeof(char) * 32)",
           "snprintf(str_2, 31, \"%d\", count)",
           "str_2[31] = 0",
           "str_0_len += strlen(str_2)",
           "str_0 = malloc(sizeof(char) * str_0_len)",
           "strcpy(str_0, str_2)"] ∧
    (["str_2 = malloc(sizeof(char) * 32)",
      "snprintf(str_2, 31, \"%d\", count)",
      "str_2[31] = 0",
      "str_0_len += strlen(str_2)",
      "str_0 = malloc(sizeof(char) * str_0_len)",
      "strcpy(str_0, str_2)"] : List String).length ≠
      (fmtIncrStmts "str_0_len" ["str_2"] ++
        ["str_0 = malloc(sizeof(char) * str_0_len)"] ++
        fmtCopyStmts "str_0" ["str_2"]).length := by
  refine ⟨by rfl, by decide⟩

/-- C2 (amended): a call to `fmt` appends, in order, the statements
emitted while stringifying the arguments, then one length increment per
argument in argument order, then the allocation of the accumulated
length, then one `strcpy`/`strcat` per argument in argument order; the
accumulator is a fresh `size_t` local initialized to 8, and the returned
value is a fresh owning string binding. -/
theorem spec_C2 (args : List Value) (ctx : FunctionContext)
    (ret : ObjBinding) (ctxF : FunctionContext)
    (h : fmt args ctx = .ok (ret, ctxF)) :
    ∃ names ctx3,
      stringifyValues args (fmtPreCtx ctx) = .ok (names, ctx3) ∧
      names.length = args.length ∧
      ret = createStringBinding ctx.nextId
        ("str_" ++ toString ctx.locals.length) none ∧
      ret.keepAlive = false ∧
      (createNumericVariable (some (ret.name ++ "_len")) 8 CType.Size
          (createStringVariable none ctx).2).1.initializer =
        some (.numLit "8" CType.Size) ∧
      ctxF.body = ctx3.body ++
        fmtIncrStmts (ret.name ++ "_len") names ++
        [ret.name ++ " = malloc(sizeof(char) * " ++ (ret.name ++ "_len") ++
          ")"] ++
        fmtCopyStmts ret.name names := by
  simp only [fmt, Bind.bind, Except.bind] at h
  cases hsv : stringifyValues args (fmtPreCtx ctx) with
  | error e =>
      rw [show stringifyValues args
          (createNumericVariable
            (some ((createStringVariable none ctx).1.name ++ "_len")) 8
            CType.Size (createStringVariable none ctx).2).2 =
          stringifyValues args (fmtPreCtx ctx) from rfl, hsv] at h
      exact Except.noConfusion h
  | ok q =>
      obtain ⟨names, ctx3⟩ := q
      rw [show stringifyValues args
          (createNumericVariable
            (some ((createStringVariable none ctx).1.name ++ "_len")) 8
            CType.Size (createStringVariable none ctx).2).2 =
          stringifyValues args (fmtPreCtx ctx) from rfl, hsv] at h
      simp only at h
      cases h
      refine ⟨names, ctx3, ?_, ?_, rfl, rfl, rfl, ?_⟩
      · exact rfl
      · exact stringifyValues_length args _ names ctx3 hsv
      · simp [pushBody, createStringVariable, createStringBinding,
          createNumericVariable, createNumericBinding, ObjBinding.name,
          List.append_assoc]

/-- C2 witness: `fmt("a")` in a fresh context. -/
theorem spec_C2_witness :
    (fmt [Value.vstr "a"] ctx0f = .ok (c2retx, c2ctxFx)) ∧
    (∃ names ctx3,
      stringifyValues [Value.vstr "a"] (fmtPreCtx ctx0f) = .ok (names, ctx3) ∧
      names.length = [Value.vstr "a"].length ∧
      c2retx = createStringBinding ctx0f.nextId
        ("str_" ++ toString ctx0f.locals.length) none ∧
      c2retx.keepAlive = false ∧
      (createNumericVariable (some (c2retx.name ++ "_len")) 8 CType.Size
          (createStringVariable none ctx0f).2).1.initializer =
        some (.numLit "8" CType.Size) ∧
      c2ctxFx.body = ctx3.body ++
        fmtIncrStmts (c2retx.name ++ "_len") names ++
        [c2retx.name ++ " = malloc(sizeof(char) * " ++
          (c2retx.name ++ "_len") ++ ")"] ++
        fmtCopyStmts c2retx.name names) :=
  ⟨by rfl, spec_C2 [Value.vstr "a"] ctx0f c2retx c2ctxFx (by rfl)⟩

/-- C3: when every child is a literal string or number, compiling the
children sets the node's text to their in-order concatenation (numbers
printed in decimal) and leaves the compilation state — in particular
every context body — unchanged. -/
theorem spec_C3 (fuel : Nat) (node : UINode) (children : List ReactNode)
    (st : CState) (h : ∀ c ∈ children, isLiteralChild c = true) :
    transformNodeChildren (fuel + 1) node children st =
      .ok (node.withText (String.join (children.map literalText)), st) := by
  have hcl := classify_fold_lit children h true true []
  simp only [transformNodeChildren, classifyChildren, hcl, List.nil_append,
    List.map_map]
  rfl

/-- C3 witness: the children `["Hello, ", 42]` produce the static text
`Hello, 42` with no state change. -/
theorem spec_C3_witness :
    (∀ c ∈ [ReactNode.rstr "Hello, ", ReactNode.rnum 42],
      isLiteralChild c = true) ∧
    transformNodeChildren 1 (createNode "text")
        [ReactNode.rstr "Hello, ", ReactNode.rnum 42] appState =
      .ok ((createNode "text").withText
        (String.join ([ReactNode.rstr "Hello, ",
          ReactNode.rnum 42].map literalText)), appState) :=
  ⟨by decide, spec_C3 0 (createNode "text")
    [ReactNode.rstr "Hello, ", ReactNode.rnum 42] appState (by decide)⟩

set_option maxRecDepth 40000 in
/-- C4 counterexample: a handler that sets a string state to `"x"`
compiles to a function whose last statement is the destroyer of the
handler's string temporary, `free(str_0);`, which comes after the
`App_react_update(e->data);` call — so the update call is not the last
statement of the emitted handler. -/
theorem spec_C4_cex :
    (c4c1.bind (fun c1 => compileComponentMethod
        (createComponentContext "App" [] []) (some c1) none
        ", ui_event_t *e, void *arg" none "e->data")).map linesOf =
      .ok ["static void App_handle_widget_click_0(ui_widget_t *w, ui_event_t *e, void *arg)",
        "\x7b",
        "        char* str_0 = strdup2(\"x\");",
        "        App_react_t *_that = ui_widget_get_data(e->data, App_proto);",
        "        free(_that->state.name);",
        "        _that->state.name = str_0;",
        "        App_react_update(e->data);",
        "        free(str_0);",
        "\x7d"] ∧
    (["static void App_handle_widget_click_0(ui_widget_t *w, ui_event_t *e, void *arg)",
      "\x7b",
      "        char* str_0 = strdup2(\"x\");",
      "        App_react_t *_that = ui_widget_get_data(e->data, App_proto);",
      "        free(_that->state.name);",
      "        _that->state.name = str_0;",
      "        App_react_update(e->data);",
      "        free(str_0);",
      "\x7d"] : List String).dropLast.getLast? = some "        free(str_0);" ∧
    ("        free(str_0);" : String) ≠ "        App_react_update(e->data);" := by
  refine ⟨by rfl, by rfl, by decide⟩


/-- C4 (amended): invoking a state setter during a handler trace sets the
handler context's `hasStateOperation` flag, and the emitted handler
function then appends a call to the component's update function as the
last statement of its body section; the only statements after it are the
destroyers of the handler's own locals, before the closing brace. -/
theorem spec_C4 (comp : ComponentContext) (prog : List HOp) (t : ObjBinding)
    (v : Value) (c0 c1 : FunctionContext) (decls dests : List String)
    (args thatId : String)
    (hmem : HOp.setState t v ∈ prog)
    (hrun : runOps prog c0 = .ok c1)
    (hdecl : c1.locals.mapM compileVariableDeclaration = .ok decls)
    (hdest : c1.locals.mapM (fun d => compileObjectDestroyer d.initializer) =
      .ok dests) :
    c1.hasStateOperation = true ∧
    compileComponentMethod comp (some c1) none args none thatId =
      .ok (String.intercalate "\n"
        (([("static void " ++ comp.fc.name ++ "_" ++
              (if c1.name ≠ "" then c1.name else "unnamed_func") ++
              "(ui_widget_t *w" ++ args ++ ")"),
           "\x7b",
           formatFuncBody decls,
           formatFuncBody
             ([comp.fc.name ++ "_react_t *_that = ui_widget_get_data(" ++
                 thatId ++ ", " ++ comp.fc.name ++ "_proto)"] ++
               c1.body ++
               [comp.fc.name ++ "_react_update(" ++ thatId ++ ")"]),
           formatFuncBody dests,
           "\x7d"]).filter (fun s => s ≠ ""))) := by
  have hflag := runOps_setState_flag prog t v c0 c1 hmem hrun
  refine ⟨hflag, ?_⟩
  simp only [compileComponentMethod, hflag, if_true, compileFunction, hdecl,
    hdest, Bind.bind, Except.bind]

set_option maxRecDepth 40000 in
/-- C4 witness: the string-state handler scenario, instantiated. -/
theorem spec_C4_witness :
    (runOps [HOp.setState c4stateB (Value.vstr "x")]
        (createFunctionContext "handle_widget_click_0") = .ok c4c1x) ∧
    c4c1x.hasStateOperation = true ∧
    compileComponentMethod (createComponentContext "App" [] []) (some c4c1x)
        none ", ui_event_t *e, void *arg" none "e->data" =
      .ok ("static void App_handle_widget_click_0(ui_widget_t *w, ui_event_t *e, void *arg)\n\x7b\n        char* str_0 = strdup2(\"x\");\n        App_react_t *_that = ui_widget_get_data(e->data, App_proto);\n        free(_that->state.name);\n        _that->state.name = str_0;\n        App_react_update(e->data);\n        free(str_0);\n\x7d") :=
  ⟨by rfl,
    by exact (spec_C4 (createComponentContext "App" [] [])
      [HOp.setState c4stateB (Value.vstr "x")] c4stateB (Value.vstr "x")
      (createFunctionContext "handle_widget_click_0") c4c1x
      ["char* str_0 = strdup2(\"x\")"] ["free(str_0)"]
      ", ui_event_t *e, void *arg" "e->data"
      (List.mem_singleton.mpr rfl) (by rfl) (by rfl) (by rfl)).1,
    by exact (spec_C4 (createComponentContext "App" [] [])
      [HOp.setState c4stateB (Value.vstr "x")] c4stateB (Value.vstr "x")
      (createFunctionContext "handle_widget_click_0") c4c1x
      ["char* str_0 = strdup2(\"x\")"] ["free(str_0)"]
      ", ui_event_t *e, void *arg" "e->data"
      (List.mem_singleton.mpr rfl) (by rfl) (by rfl) (by rfl)).2⟩

/-- C5 counterexample: registering the identical handler on two different
elements yields one event-handler declaration and a registration function
containing a single `ui_widget_on` statement, which targets the first
element's reference `ref_0` — not one registration per registering
element. -/
theorem spec_C5_cex :
    c5step2.map (fun r =>
        (r.1, r.2.2.comp.refs, eventRegistrationStmts r.2.2.comp,
         r.2.2.comp.eventHandlers.length)) =
      .ok ("handle_widget_click_0", ["ref_0", "ref_1"],
        ["ui_widget_on(ref_0, \"click\", App_handle_widget_click_0, w)"], 1) ∧
    (["ui_widget_on(ref_0, \"click\", App_handle_widget_click_0, w)"] :
      List String).length = 1 ∧ (1 : Nat) ≠ 2 := by
  refine ⟨by rfl, by rfl, by decide⟩

/-- C5 (amended): re-registering a handler already recorded (by function
identity) allocates a reference for the new element and returns the
previously generated name without re-tracing and without adding a new
`EventHandlerDeclaration`; since the registration function emits exactly
one `ui_widget_on` statement per recorded declaration, the repeated
handler keeps a single registration, targeting the first element's
reference. -/
theorem spec_C5 (st : CState) (node : UINode) (ev : String) (h : Handler)
    (decl : EventHandlerDecl)
    (hok : componentContextOk st = true)
    (hfound : st.comp.eventHandlers.find?
      (fun item => item.handler.matches h) = some decl) :
    (∃ ref,
      transformEventHandler node ev h st =
        .ok (decl.context.name, node.withAttr "ref" (.pstr ref),
          { st with comp := { st.comp with refs := st.comp.refs ++ [ref] } })) ∧
    (eventRegistrationStmts st.comp).length = st.comp.eventHandlers.length := by
  refine ⟨?_, by simp [eventRegistrationStmts]⟩
  simp only [transformEventHandler, hok, Bool.not_true, Bool.false_eq_true,
    if_false, allocRef]
  rw [hfound]
  exact ⟨_, rfl⟩

/-- C5 witness: re-registering `c5h` on a `button` after it was recorded
for the `widget` element. -/
theorem spec_C5_witness :
    (c5st1.comp.eventHandlers.find?
      (fun item => item.handler.matches c5h) = some c5decl0) ∧
    (∃ ref,
      transformEventHandler (createNode "button") "click" c5h c5st1 =
        .ok (c5decl0.context.name,
          (createNode "button").withAttr "ref" (.pstr ref),
          { c5st1 with comp := { c5st1.comp with
              refs := c5st1.comp.refs ++ [ref] } })) ∧
    (eventRegistrationStmts c5st1.comp).length =
      c5st1.comp.eventHandlers.length :=
  ⟨by rfl,
    (spec_C5 c5st1 (createNode "button") "click" c5h c5decl0 (by rfl)
      (by rfl)).1,
    (spec_C5 c5st1 (createNode "button") "click" c5h c5decl0 (by rfl)
      (by rfl)).2⟩

/-- C6 counterexample: promoting `obj_0` with `useState` retracts only
the body statement that starts with `obj_0`; the statement `foo(obj_0)`,
which references the binding by its old name as a call argument,
survives — the claim would require the resulting body to be empty. -/
theorem spec_C6_cex :
    (useState (.vbinding c6objB) none c6st).map (fun p => p.2.comp.fc.body) =
      .ok ["foo(obj_0)"] ∧
    (["foo(obj_0)"] : List String) ≠ [] := by
  refine ⟨by rfl, by decide⟩

/-- C6 (amended): `useState` on an `ObjectBinding` removes the binding's
local declaration (by object identity), retracts exactly the emitted body
statements that start with the binding's old name (statements merely
referencing it elsewhere are kept), renames the binding to the persistent
state-field name and appends it to the component's state list. -/
theorem spec_C6 (st : CState) (b : ObjBinding) (ret : ObjBinding)
    (st2 : CState) (h : useState (.vbinding b) none st = .ok (ret, st2)) :
    ∃ stateName,
      ret = b.withName ("_that->state." ++ stateName) ∧
      st2.comp.fc.locals =
        st.comp.fc.locals.filter (fun l => l.initializer.id ≠ b.id) ∧
      st2.comp.fc.body =
        st.comp.fc.body.filter (fun line => !strStartsWith line b.name) ∧
      st2.comp.state = st.comp.state ++
        [⟨stateName, b.withName ("_that->state." ++ stateName)⟩] := by
  simp only [useState] at h
  cases hok : componentContextOk st with
  | true =>
      rw [hok] at h
      simp only [Bool.not_true, Bool.false_eq_true, if_false] at h
      cases h
      exact ⟨_, rfl, rfl, rfl, rfl⟩
  | false =>
      rw [hok] at h
      simp only [Bool.not_false, if_true] at h
      exact Except.noConfusion h

/-- C6 witness: the concrete promotion scenario `c6st`. -/
theorem spec_C6_witness :
    (useState (.vbinding c6objB) none c6st = .ok (c6ret, c6stAfter)) ∧
    (∃ stateName,
      c6ret = c6objB.withName ("_that->state." ++ stateName) ∧
      c6stAfter.comp.fc.locals =
        c6st.comp.fc.locals.filter
          (fun l => l.initializer.id ≠ c6objB.id) ∧
      c6stAfter.comp.fc.body =
        c6st.comp.fc.body.filter
          (fun line => !strStartsWith line c6objB.name) ∧
      c6stAfter.comp.state = c6st.comp.state ++
        [⟨stateName, c6objB.withName ("_that->state." ++ stateName)⟩]) :=
  ⟨by rfl, spec_C6 c6st c6objB c6ret c6stAfter (by rfl)⟩

/-- C9 witness: the binding read from a concrete text input is
`keepAlive` and its destroyer is empty. -/
theorem spec_C9_witness :
    (getTextInputValue "_that->refs.input" (createFunctionContext "h")).1.keepAlive
        = true ∧
    (∀ d ∈ (getTextInputValue "_that->refs.input"
        (createFunctionContext "h")).2.locals,
      d.initializer.id = (getTextInputValue "_that->refs.input"
        (createFunctionContext "h")).1.id →
        d.initializer.keepAlive = true) ∧
    compileObjectDestroyer
      (getTextInputValue "_that->refs.input" (createFunctionContext "h")).1 =
        .ok "" ∧
    (∀ xs ys : List String,
      formatFuncBody (xs ++ "" :: ys) = formatFuncBody (xs ++ ys)) :=
  spec_C9 "_that->refs.input" (createFunctionContext "h")
    (getTextInputValue "_that->refs.input" (createFunctionContext "h")).1
    (by rfl)

end LCUI
